import Mathlib

/-!
Verification of the real-time presence, messaging and alerting core of the
farm-management application.

Each definition below is a shallow embedding of one piece of the JavaScript
source:

* the socket server (`connectedUsers` map, `send_message`, `mark_read`,
  `admin_notification` and `disconnect` handlers);
* `models/Chat.js` (`markAsRead`);
* the sensor model (`checkThresholds`);
* the consultation-chat REST routes (`POST /:id/assign`, `PUT /:id/status`,
  `POST /:id/rating`) over the consultation chat schema.

Identifiers are strings or numbers in the source; they are embedded as `Nat`.
Dates are embedded as `Nat` timestamps supplied by the caller.
-/

namespace FarmCore

/-! ## Presence registry

The socket server keeps `connectedUsers : Map<userIdString, {socketId, user,
connectedAt}>`.  We embed the map as an association list in insertion order,
keeping only the `socketId` component of the stored record (the `user` and
`connectedAt` fields are never consulted by the handlers under study).
-/

/-- One entry of the `connectedUsers` map: user id paired with socket id. -/
abbrev Presence := List (Nat × Nat)

/-- JS `Map.set k v`: overwrite in place if the key is present (insertion
order is preserved), otherwise append. Embeds
`connectedUsers.set(socket.user._id.toString(), { socketId: socket.id, ... })`
run on connection. -/
def register (m : Presence) (u sid : Nat) : Presence :=
  if m.any (fun p => p.1 = u) then
    m.map (fun p => if p.1 = u then (u, sid) else p)
  else
    m ++ [(u, sid)]

/-- JS `connectedUsers.get(u)?.socketId`. -/
def lookup (m : Presence) (u : Nat) : Option Nat :=
  (m.find? (fun p => p.1 = u)).map (fun p => p.2)

/-- The presence update performed by the disconnect handler:
`connectedUsers.delete(socket.user._id.toString())`.  The handler receives the
disconnecting socket (whose id is `sid`) but deletes by user id alone; `sid`
is not consulted. -/
def disconnectPresence (m : Presence) (u _sid : Nat) : Presence :=
  m.filter (fun p => ¬ (p.1 = u))

/-! ## Message delivery (the send_message socket handler)

On a `send_message` event the handler loads the chat, rejects non-participant
senders, appends the message, then

* for every participant whose user id is in `connectedUsers`, emits
  `new_message` to that participant socket
  (`io.to(participantSocketId).emit(...)`), and
* for every participant other than the sender that is **not** in
  `connectedUsers`, emits a `send_notification` event **on the sender socket**
  (`socket.emit("send_notification", { userId: participant, ... })`).

We embed the emitted events; `dest` is the socket id the event is written to
and `aboutUser` is the `userId` field of a notification payload.
-/

/-- One socket emission: destination socket id, event name, and the user id
carried in a notification payload (if any). -/
structure Emit where
  dest : Nat
  event : String
  aboutUser : Option Nat
  deriving DecidableEq, Repr

/-- The events emitted by the `send_message` handler, given the chat
participant user ids, the sender (user id and socket id) and the
`connectedUsers` map.  Mirrors the source: participant check, then the
`new_message` fan-out loop, then the offline-notification loop. -/
def sendMessageEmits (participants : List Nat) (senderId senderSocket : Nat)
    (cu : Presence) : List Emit :=
  if participants.any (fun p => p = senderId) then
    participants.filterMap
      (fun p => (lookup cu p).map (fun sid => ⟨sid, "new_message", none⟩))
    ++ participants.filterMap
      (fun p =>
        if p ≠ senderId ∧ ¬ cu.any (fun q => q.1 = p) then
          some ⟨senderSocket, "send_notification", some p⟩
        else none)
  else
    [⟨senderSocket, "error", none⟩]

/-- How many of the emitted events land on the live socket of user `u`:
events whose destination is the socket currently registered for `u`. An
offline user has no socket and receives nothing. -/
def receivedBy (cu : Presence) (u : Nat) (es : List Emit) : Nat :=
  (es.filter (fun e => lookup cu u = some e.dest)).length

/-! ## Roles, rooms and the admin_notification handler

On connection every socket joins the room named after its role
(`socket.join(socket.user.role)`), its personal room, and additionally the
`experts` room if it is an expert and the `admins` room if it is an admin.
Rooms are embedded as a small closed type rather than raw strings; note that
`io.to("farmer")` in the `admin_notification` handler addresses the
role-name room. -/

/-- User roles relevant to the socket server. -/
inductive Role where
  | farmer
  | expert
  | admin
  deriving DecidableEq, Repr

/-- A broadcast room: the role-name room joined via
`socket.join(socket.user.role)`, the personal room `user_<id>`, and the
dedicated `experts` / `admins` rooms. -/
inductive Room where
  | roleRoom (r : Role)
  | userRoom (u : Nat)
  | experts
  | admins
  deriving DecidableEq, Repr

/-- A live socket connection: user id, role, socket id. -/
structure SConn where
  user : Nat
  role : Role
  socketId : Nat
  deriving DecidableEq, Repr

/-- The rooms a connection joins in the connection handler. -/
def roomsOf (c : SConn) : List Room :=
  [Room.roleRoom c.role, Room.userRoom c.user]
  ++ (if c.role = Role.expert then [Room.experts] else [])
  ++ (if c.role = Role.admin then [Room.admins] else [])

/-- `io.to(room).emit(...)`: the socket ids of every connection currently in
the room. -/
def broadcastRoom (conns : List SConn) (r : Room) : List Nat :=
  (conns.filter (fun c => (roomsOf c).contains r)).map (fun c => c.socketId)

/-- The `admin_notification` handler: switches on `targetRole` and fans out to
`io` (all sockets), the `farmer` role room, the `experts` room or the `admins`
room; an unrecognised `targetRole` matches no case and nothing is emitted.
The handler never reads `sender` (in the source, `socket.user`): there is no
admin check.  Returns the socket ids that receive the event. -/
def adminNotification (_sender : SConn) (conns : List SConn)
    (targetRole : String) : List Nat :=
  if targetRole = "all" then conns.map (fun c => c.socketId)
  else if targetRole = "farmers" then broadcastRoom conns (Room.roleRoom Role.farmer)
  else if targetRole = "experts" then broadcastRoom conns Room.experts
  else if targetRole = "admins" then broadcastRoom conns Room.admins
  else []

/-! ## The multi-participant chat model (models/Chat.js)

`chatSchema` keeps `participants[{user, role, joinedAt, isActive, lastSeen}]`
and `messages[{sender, content, ..., isRead, readBy[{user, readAt}]}]`.
We embed the fields that `markAsRead` and the `mark_read` socket handler
read or write. -/

/-- A message of the multi-participant chat: sender user id, the global
`isRead` flag, and the `readBy` list of (user id, readAt) markers. -/
structure MMsg where
  sender : Nat
  isRead : Bool
  readBy : List (Nat × Nat)
  deriving DecidableEq, Repr

/-- A chat participant entry. -/
structure MPart where
  user : Nat
  role : Role
  lastSeen : Option Nat
  deriving DecidableEq, Repr

/-- The multi-participant chat document. -/
structure MChat where
  chatId : Nat
  participants : List MPart
  messages : List MMsg
  deriving DecidableEq, Repr

/-- `participants.find(p => p.user === u)` followed by mutation of the found
entry: updates `lastSeen` of the first participant entry for `u`, if any. -/
def touchLastSeen (ps : List MPart) (u t : Nat) : List MPart :=
  match ps with
  | [] => []
  | p :: rest =>
    if p.user = u then { p with lastSeen := some t } :: rest
    else p :: touchLastSeen rest u t

/-- The per-message body of the `markAsRead` loop: a message whose sender is
not `u` and whose `isRead` flag is still false gets the flag set and a
`readBy` marker for `u` appended; any other message is untouched. -/
def markMsg (u t : Nat) (m : MMsg) : MMsg :=
  if m.sender ≠ u ∧ m.isRead = false then
    { m with isRead := true, readBy := m.readBy ++ [(u, t)] }
  else m

/-- `chatSchema.methods.markAsRead(userId)` at time `t`: run the marker loop
over every message, then update the participant entry of `u` (if present)
with a fresh `lastSeen`. -/
def markAsRead (c : MChat) (u t : Nat) : MChat :=
  { c with
    messages := c.messages.map (markMsg u t),
    participants := touchLastSeen c.participants u t }

/-- The `mark_read` socket handler: look the chat up by id; if absent, do
nothing; otherwise apply `markAsRead` for the calling user (no participant
check is performed), save, and emit `messages_read` to the live socket of
every participant other than the caller.  Returns the new chat store and the
emitted events. -/
def markReadHandler (chats : List MChat) (cid u t : Nat) (cu : Presence) :
    List MChat × List Emit :=
  match chats.find? (fun c => c.chatId = cid) with
  | none => (chats, [])
  | some c =>
    let c' := markAsRead c u t
    (chats.map (fun x => if x.chatId = c.chatId then c' else x),
     c.participants.filterMap (fun p =>
       if p.user ≠ u then
         (lookup cu p.user).map (fun sid => ⟨sid, "messages_read", some u⟩)
       else none))

/-! ## Threshold alert engine (the sensor model)

`sensorSchema.methods.checkThresholds(reading)` inspects only the
`temperature` and `soilMoisture` metrics: temperature against its `min`
(medium severity) and, failing that, its `max` (high severity); soil moisture
against its `min` only (high severity).  The `humidity` and `pH` thresholds
that the schema also stores are never consulted.  In JS a comparison with an
absent (`undefined`) bound is false; `jsLtOpt` / `jsGtOpt` embed that. -/

/-- A per-metric threshold, both bounds optional. -/
structure MetricThreshold where
  min : Option Int
  max : Option Int
  deriving DecidableEq, Repr

/-- The `thresholds` subdocument of a sensor: the four configurable metrics. -/
structure SensorThresholds where
  temperature : Option MetricThreshold
  humidity : Option MetricThreshold
  soilMoisture : Option MetricThreshold
  pH : Option MetricThreshold
  deriving DecidableEq, Repr

/-- The metric values of a reading (the `value` field of each metric
subdocument; metrics of the reading schema that `checkThresholds` can never
inspect are omitted). -/
structure SensorReading where
  temperature : Option Int
  humidity : Option Int
  soilMoisture : Option Int
  pH : Option Int
  deriving DecidableEq, Repr

/-- JS `v < bound` where `bound` may be `undefined`: false when absent. -/
def jsLtOpt (v : Int) (bound : Option Int) : Bool :=
  match bound with
  | some b => v < b
  | none => false

/-- JS `v > bound` where `bound` may be `undefined`: false when absent. -/
def jsGtOpt (v : Int) (bound : Option Int) : Bool :=
  match bound with
  | some b => v > b
  | none => false

/-- Alert severity enum of the sensor schema. -/
inductive Severity where
  | low
  | medium
  | high
  | critical
  deriving DecidableEq, Repr

/-- An alert record as pushed by `checkThresholds` (type tag, message,
severity). -/
structure SAlert where
  type : String
  message : String
  severity : Severity
  deriving DecidableEq, Repr

/-- The alert pushed for a temperature below its minimum. -/
def tempLowAlert (v : Int) : SAlert :=
  ⟨"abnormal_reading", "Temperature too low: " ++ toString v ++ "°C", Severity.medium⟩

/-- The alert pushed for a temperature above its maximum. -/
def tempHighAlert (v : Int) : SAlert :=
  ⟨"abnormal_reading", "Temperature too high: " ++ toString v ++ "°C", Severity.high⟩

/-- The alert pushed for soil moisture below its minimum. -/
def soilLowAlert (v : Int) : SAlert :=
  ⟨"abnormal_reading", "Soil moisture too low: " ++ toString v ++ "%", Severity.high⟩

/-- `sensorSchema.methods.checkThresholds(reading)`. -/
def checkThresholds (th : SensorThresholds) (r : SensorReading) : List SAlert :=
  (match th.temperature, r.temperature with
   | some tt, some v =>
     if jsLtOpt v tt.min then [tempLowAlert v]
     else if jsGtOpt v tt.max then [tempHighAlert v]
     else []
   | _, _ => [])
  ++
  (match th.soilMoisture, r.soilMoisture with
   | some st, some v =>
     if jsLtOpt v st.min then [soilLowAlert v]
     else []
   | _, _ => [])

/-! ## Consultation chat store (the digifarm chat schema and REST routes)

The consultation chat schema keeps `{farmer (required), expert (optional),
subject, category, status ∈ {open, in_progress, resolved, closed}, priority,
rating {score, feedback}, messages[...]}`.  The routes under study are
`POST /:id/assign` (the claim operation), `PUT /:id/status` and
`POST /:id/rating`.  The store is embedded as a list of documents; a Mongoose
`findOne(filter)` is `List.find?` and a `document.save()` writes the modified
snapshot back over every row with the same id. -/

/-- The consultation chat status enum (`opened` embeds the source value
`open`, a reserved word in Lean). -/
inductive DStatus where
  | opened
  | in_progress
  | resolved
  | closed
  deriving DecidableEq, Repr

/-- The rating subdocument `{score, feedback}`. -/
structure DRating where
  score : Nat
  feedback : String
  deriving DecidableEq, Repr

/-- A consultation chat message `{sender ∈ {farmer, expert}, message,
timestamp, attachments}`; the sender is a discriminator string, embedded as a
Bool (`true` = farmer). -/
structure DMsg where
  senderIsFarmer : Bool
  message : String
  timestamp : Nat
  attachments : List String
  deriving DecidableEq, Repr

/-- A consultation chat document. -/
structure DChat where
  id : Nat
  farmer : Nat
  expert : Option Nat
  subject : String
  status : DStatus
  rating : Option DRating
  messages : List DMsg
  deriving DecidableEq, Repr

/-- The participants of a consultation chat: its farmer, plus its expert once
one is assigned (the schema has no separate participants array; the routes
grant access exactly to these two users). -/
def dparticipants (c : DChat) : List Nat :=
  c.farmer :: (match c.expert with | some e => [e] | none => [])

/-- The `findOne` filter of `POST /:id/assign`:
`{ _id: cid, status: "open", expert: { $exists: false } }`. -/
def findAssignable (db : List DChat) (cid : Nat) : Option DChat :=
  db.find? (fun c => c.id = cid ∧ c.status = DStatus.opened ∧ c.expert = none)

/-- `chat.expert = expertId; chat.status = "in_progress"; chat.save()` for a
previously fetched snapshot `c`: the modified snapshot replaces every stored
row carrying its id. -/
def saveAssign (db : List DChat) (c : DChat) (expertId : Nat) : List DChat :=
  db.map (fun x =>
    if x.id = c.id then { c with expert := some expertId, status := DStatus.in_progress }
    else x)

/-- `POST /:id/assign` run to completion with no interleaving: find an open,
unassigned chat with the requested id, else answer 404
"Chat not found or already assigned"; on success write the assignment back. -/
def assign (db : List DChat) (cid expertId : Nat) : Except String (List DChat) :=
  match findAssignable db cid with
  | none => Except.error ("Chat not found or already assigned")
  | some c => Except.ok (saveAssign db c expertId)

/-- The user types the auth middleware can attach to a request. -/
inductive UserType where
  | farmer
  | expert
  deriving DecidableEq, Repr

/-- The user-restriction part of the `findOne` filter built by
`PUT /:id/status`: `query.farmer = user` for farmers, `query.expert = user`
for experts. -/
def matchesUser (c : DChat) (uid : Nat) (ty : UserType) : Bool :=
  match ty with
  | UserType.farmer => c.farmer = uid
  | UserType.expert => c.expert = some uid

/-- The `findOne` filter shared by `PUT /:id/status` and the message route:
`_id` plus the user restriction. -/
def findForUser (db : List DChat) (cid uid : Nat) (ty : UserType) : Option DChat :=
  db.find? (fun c => c.id = cid ∧ matchesUser c uid ty = true)

/-- `PUT /:id/status`: fetch the caller chat, else 404; then
`chat.status = status; chat.save()` — the new status is written with no
inspection of the current status (`newStatus` already ranges over the schema
enum, which is all the validation Mongoose applies). -/
def updateStatusRoute (db : List DChat) (cid uid : Nat) (ty : UserType)
    (newStatus : DStatus) : Except String (List DChat) :=
  match findForUser db cid uid ty with
  | none => Except.error ("Chat not found")
  | some c =>
    Except.ok (db.map (fun x =>
      if x.id = c.id then { c with status := newStatus } else x))

/-- `POST /:id/rating`: fetch by `{ _id: cid, farmer: fid }`, else 404; then
`chat.rating = { score, feedback }; chat.status = "closed"; chat.save()` —
no check that a rating already exists.  The save does run the schema
validators: `rating.score` carries `min: 1, max: 5`, so an out-of-range
score raises a ValidationError that the catch block turns into the 500
"Server error" answer, storing nothing. -/
def rateRoute (db : List DChat) (cid fid : Nat) (score : Nat)
    (feedback : String) : Except String (List DChat) :=
  match db.find? (fun c => c.id = cid ∧ c.farmer = fid) with
  | none => Except.error ("Chat not found")
  | some c =>
    if 1 ≤ score ∧ score ≤ 5 then
      Except.ok (db.map (fun x =>
        if x.id = c.id then
          { c with rating := some ⟨score, feedback⟩, status := DStatus.closed }
        else x))
    else Except.error ("Server error")

/-! ## Interleaved execution of two concurrent claims

`POST /:id/assign` is a find-then-save two-step with an await (a suspension
point of the event loop) between the `findOne` and the `save`.  We model two
claimants A and B, each running the two steps of `assign`, under an explicit
schedule of their steps.  A read step runs the `findOne` filter against the
current store and either captures the fetched snapshot or completes with the
404 rejection; a write step saves the captured snapshot with the claimant
assignment. -/

/-- The progress of one claimant through the assign route. -/
inductive ClaimPhase where
  | idle
  | fetched (c : DChat)
  | succeeded
  | rejected
  deriving DecidableEq, Repr

/-- The joint state of the store and the two claimants. -/
structure ClaimRace where
  db : List DChat
  phaseA : ClaimPhase
  phaseB : ClaimPhase
  deriving DecidableEq, Repr

/-- One scheduled step: the read or the write of claimant A or B. -/
inductive ClaimMv where
  | readA
  | writeA
  | readB
  | writeB
  deriving DecidableEq, Repr

/-- Execute one scheduled step of the race on conversation `cid` with
claimant experts `eA` and `eB`; a step that is not enabled in the current
phase does nothing. -/
def claimStep (cid eA eB : Nat) (s : ClaimRace) (mv : ClaimMv) : ClaimRace :=
  match mv with
  | ClaimMv.readA =>
    match s.phaseA with
    | ClaimPhase.idle =>
      match findAssignable s.db cid with
      | some c => { s with phaseA := ClaimPhase.fetched c }
      | none => { s with phaseA := ClaimPhase.rejected }
    | _ => s
  | ClaimMv.writeA =>
    match s.phaseA with
    | ClaimPhase.fetched c =>
      { s with db := saveAssign s.db c eA, phaseA := ClaimPhase.succeeded }
    | _ => s
  | ClaimMv.readB =>
    match s.phaseB with
    | ClaimPhase.idle =>
      match findAssignable s.db cid with
      | some c => { s with phaseB := ClaimPhase.fetched c }
      | none => { s with phaseB := ClaimPhase.rejected }
    | _ => s
  | ClaimMv.writeB =>
    match s.phaseB with
    | ClaimPhase.fetched c =>
      { s with db := saveAssign s.db c eB, phaseB := ClaimPhase.succeeded }
    | _ => s

/-- Run a schedule of steps from a given race state. -/
def runClaims (cid eA eB : Nat) (s : ClaimRace) : List ClaimMv → ClaimRace
  | [] => s
  | mv :: rest => runClaims cid eA eB (claimStep cid eA eB s mv) rest

/-! ## Helper lemmas -/

theorem find?_map_overwrite (m : Presence) (u s v : Nat) (hv : v ≠ u) :
    (m.map (fun p => if p.1 = u then (u, s) else p)).find? (fun p => p.1 = v)
      = m.find? (fun p => p.1 = v) := by
  induction m with
  | nil => rfl
  | cons p rest ih =>
    rw [List.map_cons]
    by_cases hp : p.1 = u
    · have h1 : ¬ p.1 = v := by rw [hp]; exact hv.symm
      rw [if_pos hp, List.find?_cons_of_neg _ (by simp [hv.symm]),
          List.find?_cons_of_neg _ (by simp [h1]), ih]
    · by_cases h2 : p.1 = v
      · rw [if_neg hp, List.find?_cons_of_pos _ (by simp [h2]),
            List.find?_cons_of_pos _ (by simp [h2])]
      · rw [if_neg hp, List.find?_cons_of_neg _ (by simp [h2]),
            List.find?_cons_of_neg _ (by simp [h2]), ih]

theorem find?_append_single (m : Presence) (u s v : Nat) (hv : v ≠ u) :
    (m ++ [(u, s)]).find? (fun p => p.1 = v) = m.find? (fun p => p.1 = v) := by
  induction m with
  | nil =>
    rw [List.nil_append, List.find?_cons_of_neg _ (by simp [hv.symm])]
  | cons p rest ih =>
    rw [List.cons_append]
    by_cases h2 : p.1 = v
    · rw [List.find?_cons_of_pos _ (by simp [h2]),
          List.find?_cons_of_pos _ (by simp [h2])]
    · rw [List.find?_cons_of_neg _ (by simp [h2]),
          List.find?_cons_of_neg _ (by simp [h2]), ih]

theorem find?_register (m : Presence) (u s v : Nat) (hv : v ≠ u) :
    (register m u s).find? (fun p => p.1 = v) = m.find? (fun p => p.1 = v) := by
  unfold register
  split
  · exact find?_map_overwrite m u s v hv
  · exact find?_append_single m u s v hv

theorem lookup_register_ne (m : Presence) (u s v : Nat) (hv : v ≠ u) :
    lookup (register m u s) v = lookup m v := by
  unfold lookup
  rw [find?_register m u s v hv]

theorem lookup_disconnect_self (m : Presence) (u sid : Nat) :
    lookup (disconnectPresence m u sid) u = none := by
  unfold disconnectPresence lookup
  rw [List.find?_eq_none.mpr, Option.map_none']
  intro p hp
  have : p.1 ≠ u := by
    have := List.of_mem_filter hp
    simpa using this
  simp [this]

theorem lookup_disconnect_ne (m : Presence) (u sid v : Nat) (hv : v ≠ u) :
    lookup (disconnectPresence m u sid) v = lookup m v := by
  unfold disconnectPresence lookup
  congr 1
  induction m with
  | nil => rfl
  | cons p rest ih =>
    rw [List.filter_cons]
    by_cases hp : p.1 = u
    · have h1 : ¬ p.1 = v := by rw [hp]; exact hv.symm
      rw [if_neg (by simp [hp]), List.find?_cons_of_neg _ (by simp [h1]), ih]
    · by_cases h2 : p.1 = v
      · rw [if_pos (by simp [hp]), List.find?_cons_of_pos _ (by simp [h2]),
            List.find?_cons_of_pos _ (by simp [h2])]
      · rw [if_pos (by simp [hp]), List.find?_cons_of_neg _ (by simp [h2]),
            List.find?_cons_of_neg _ (by simp [h2]), ih]

theorem find?_map_replaceD (l : List DChat) (i : Nat) (d : DChat) (p : DChat → Bool)
    (hskip : ∀ x ∈ l, x.id ≠ i → p x = false) (hex : ∃ x ∈ l, x.id = i)
    (hd : p d = true) :
    (l.map (fun x => if x.id = i then d else x)).find? p = some d := by
  induction l with
  | nil => obtain ⟨x, hx, _⟩ := hex; exact absurd hx (List.not_mem_nil x)
  | cons y rest ih =>
    rw [List.map_cons]
    by_cases hy : y.id = i
    · rw [if_pos hy, List.find?_cons_of_pos _ hd]
    · rw [if_neg hy, List.find?_cons_of_neg _ (by
        simp [hskip y (List.mem_cons_self y rest) hy])]
      refine ih (fun x hx h => hskip x (List.mem_cons_of_mem y hx) h) ?_
      obtain ⟨x, hx, hxi⟩ := hex
      rcases List.mem_cons.mp hx with h | h
      · exact absurd (h ▸ hxi) hy
      · exact ⟨x, h, hxi⟩

theorem find?_map_replaceD_none (l : List DChat) (i : Nat) (d : DChat) (p : DChat → Bool)
    (hskip : ∀ x ∈ l, x.id ≠ i → p x = false) (hd : p d = false) :
    (l.map (fun x => if x.id = i then d else x)).find? p = none := by
  induction l with
  | nil => rfl
  | cons y rest ih =>
    rw [List.map_cons]
    by_cases hy : y.id = i
    · rw [if_pos hy, List.find?_cons_of_neg _ (by simp [hd]),
          ih (fun x hx h => hskip x (List.mem_cons_of_mem y hx) h)]
    · rw [if_neg hy, List.find?_cons_of_neg _ (by
        simp [hskip y (List.mem_cons_self y rest) hy]),
        ih (fun x hx h => hskip x (List.mem_cons_of_mem y hx) h)]

/-! ## The claims -/

/-- C3 counterexample.  The claim states that after register(u, A),
register(u, B), disconnect of A, the presence lookup of u still returns the
socket of B, the removal being conditional on the connection identity.  In
the source the disconnect handler deletes by user id unconditionally: with
u = 0, A = socket 1, B = socket 2 the lookup afterwards returns `none`, not
`some 2`. -/
theorem presence_disconnect_evicts_fresh :
    lookup (disconnectPresence (register (register [] 0 1) 0 2) 0 1) 0 = none
    ∧ (none : Option Nat) ≠ some 2 := by
  exact ⟨by decide, by decide⟩

/-- C3 amended.  Removal of a presence entry on disconnect is unconditional
on the user id of the disconnecting socket: after register(u, A),
register(u, B) and the disconnect of the stale socket A, the entry of u is
evicted entirely (lookup returns `none`, the entry of B included), while the
entries of every other user are untouched. -/
theorem presence_disconnect_unconditional (m : Presence) (u a b v : Nat)
    (hv : v ≠ u) :
    lookup (disconnectPresence (register (register m u a) u b) u a) u = none
    ∧ lookup (disconnectPresence (register (register m u a) u b) u a) v
        = lookup m v := by
  constructor
  · exact lookup_disconnect_self _ u a
  · rw [lookup_disconnect_ne _ u a v hv, lookup_register_ne _ u b v hv,
        lookup_register_ne m u a v hv]

/-- Witness for the C3 amended theorem at u = 0, sockets 1 and 2, other
user 5. -/
theorem presence_disconnect_unconditional_witness :
    lookup (disconnectPresence (register (register [(5, 9)] 0 1) 0 2) 0 1) 0 = none
    ∧ lookup (disconnectPresence (register (register [(5, 9)] 0 1) 0 2) 0 1) 5
        = lookup [(5, 9)] 5 :=
  presence_disconnect_unconditional [(5, 9)] 0 1 2 5 (by decide)

/-- C8 counterexample.  The claim states that a message to a conversation
with one online and one offline participant yields exactly one direct
new_message delivery and exactly one notification addressed to the offline
participant through that participant personal room, no participant receiving
two events.  In the source the fallback is a `send_notification` event
emitted on the socket of the **sender**: with participants 1 (online sender,
socket 10) and 2 (offline), the offline participant receives zero events and
the sender socket receives two. -/
theorem delivery_fallback_misdirected :
    sendMessageEmits [1, 2] 1 10 [(1, 10)]
      = [⟨10, "new_message", none⟩, ⟨10, "send_notification", some 2⟩]
    ∧ receivedBy [(1, 10)] 2 (sendMessageEmits [1, 2] 1 10 [(1, 10)]) = 0
    ∧ receivedBy [(1, 10)] 1 (sendMessageEmits [1, 2] 1 10 [(1, 10)]) = 2 := by
  refine ⟨by decide, by decide, by decide⟩

/-- C8 amended.  For a conversation with one online participant (the sender,
socket `ss`) and one offline participant `b`, the handler emits exactly one
new_message delivery (to the sender socket) and exactly one
`send_notification` fallback carrying the id of the offline participant —
but the fallback is emitted on the socket of the sender, not through the
personal room of the offline participant, which therefore receives no event
at all. -/
theorem delivery_one_online_one_offline (s b ss : Nat) (h : s ≠ b) :
    sendMessageEmits [s, b] s ss [(s, ss)]
      = [⟨ss, "new_message", none⟩, ⟨ss, "send_notification", some b⟩]
    ∧ receivedBy [(s, ss)] b (sendMessageEmits [s, b] s ss [(s, ss)]) = 0 := by
  have hb : lookup [(s, ss)] b = none := by
    unfold lookup
    rw [List.find?_cons_of_neg _ (by simp [h])]
    rfl
  have hs : lookup [(s, ss)] s = some ss := by
    unfold lookup
    rw [List.find?_cons_of_pos _ (by simp)]
    rfl
  constructor
  · unfold sendMessageEmits
    rw [if_pos (by simp)]
    simp [List.filterMap_cons, hb, hs, h, Ne.symm h, lookup]
  · unfold receivedBy
    rw [List.length_eq_zero]
    rw [List.filter_eq_nil_iff]
    intro e _
    simp [hb]

/-- Witness for the C8 amended theorem with sender 1 (socket 10) and offline
participant 2. -/
theorem delivery_one_online_one_offline_witness :
    sendMessageEmits [1, 2] 1 10 [(1, 10)]
      = [⟨10, "new_message", none⟩, ⟨10, "send_notification", some 2⟩]
    ∧ receivedBy [(1, 10)] 2 (sendMessageEmits [1, 2] 1 10 [(1, 10)]) = 0 :=
  delivery_one_online_one_offline 1 2 10 (by decide)

/-- C9 counterexample.  The claim states the admin_notification event is
admin-only: a connection whose role is not admin causes no fan-out.  The
source handler never inspects the role of the emitting socket: a farmer
connection broadcasting with targetRole "all" reaches every connected
socket. -/
theorem admin_notification_from_farmer_fans_out :
    adminNotification ⟨7, Role.farmer, 70⟩
        [⟨7, Role.farmer, 70⟩, ⟨8, Role.expert, 80⟩] "all" = [70, 80]
    ∧ ([70, 80] : List Nat) ≠ [] := by
  refine ⟨by decide, by decide⟩

theorem roleRoom_mem_roomsOf (c : SConn) (r : Role) :
    Room.roleRoom r ∈ roomsOf c ↔ r = c.role := by
  cases hr : c.role <;> cases r <;> simp [roomsOf, hr]

theorem experts_mem_roomsOf (c : SConn) :
    Room.experts ∈ roomsOf c ↔ c.role = Role.expert := by
  cases hr : c.role <;> simp [roomsOf, hr]

theorem admins_mem_roomsOf (c : SConn) :
    Room.admins ∈ roomsOf c ↔ c.role = Role.admin := by
  cases hr : c.role <;> simp [roomsOf, hr]

theorem mem_broadcastRoom (conns : List SConn) (r : Room) (x : Nat) :
    x ∈ broadcastRoom conns r ↔ ∃ c ∈ conns, r ∈ roomsOf c ∧ c.socketId = x := by
  unfold broadcastRoom
  simp only [List.mem_map, List.mem_filter, List.contains_iff_exists_mem_beq,
    beq_iff_eq]
  constructor
  · rintro ⟨c, ⟨hc, ⟨r', hr', hrr⟩⟩, hx⟩
    exact ⟨c, hc, hrr ▸ hr', hx⟩
  · rintro ⟨c, hc, hr, hx⟩
    exact ⟨c, ⟨hc, ⟨r, hr, rfl⟩⟩, hx⟩

/-- C9 amended.  The admin_notification handler performs no admin check: the
fan-out is entirely independent of the emitting connection, and a socket
receives the event exactly when the targetRole case selects it — every
connection for "all", the farmer role room for "farmers", the experts room
for "experts", the admins room for "admins" (any other targetRole matches no
case and reaches nobody). -/
theorem admin_notification_role_room_fanout (sender sender' : SConn)
    (conns : List SConn) (tr : String) (x : Nat) :
    adminNotification sender conns tr = adminNotification sender' conns tr
    ∧ (x ∈ adminNotification sender conns tr ↔
        ∃ c ∈ conns, c.socketId = x ∧
          (tr = "all"
            ∨ (tr = "farmers" ∧ c.role = Role.farmer)
            ∨ (tr = "experts" ∧ c.role = Role.expert)
            ∨ (tr = "admins" ∧ c.role = Role.admin))) := by
  refine ⟨rfl, ?_⟩
  by_cases h1 : tr = "all"
  · subst h1
    simp [adminNotification, List.mem_map, and_comm]
  by_cases h2 : tr = "farmers"
  · subst h2
    have e : adminNotification sender conns ("farmers")
        = broadcastRoom conns (Room.roleRoom Role.farmer) := rfl
    rw [e, mem_broadcastRoom]
    constructor
    · rintro ⟨c, hc, hr, hx⟩
      exact ⟨c, hc, hx, Or.inr (Or.inl ⟨rfl, ((roleRoom_mem_roomsOf c _).mp hr).symm⟩)⟩
    · rintro ⟨c, hc, hx, hcase⟩
      rcases hcase with h | ⟨_, hrole⟩ | ⟨h, _⟩ | ⟨h, _⟩
      · exact absurd h (by decide)
      · exact ⟨c, hc, (roleRoom_mem_roomsOf c _).mpr hrole.symm, hx⟩
      · exact absurd h (by decide)
      · exact absurd h (by decide)
  by_cases h3 : tr = "experts"
  · subst h3
    have e : adminNotification sender conns ("experts")
        = broadcastRoom conns Room.experts := rfl
    rw [e, mem_broadcastRoom]
    constructor
    · rintro ⟨c, hc, hr, hx⟩
      exact ⟨c, hc, hx, Or.inr (Or.inr (Or.inl ⟨rfl, (experts_mem_roomsOf c).mp hr⟩))⟩
    · rintro ⟨c, hc, hx, hcase⟩
      rcases hcase with h | ⟨h, _⟩ | ⟨_, hrole⟩ | ⟨h, _⟩
      · exact absurd h (by decide)
      · exact absurd h (by decide)
      · exact ⟨c, hc, (experts_mem_roomsOf c).mpr hrole, hx⟩
      · exact absurd h (by decide)
  by_cases h4 : tr = "admins"
  · subst h4
    have e : adminNotification sender conns ("admins")
        = broadcastRoom conns Room.admins := rfl
    rw [e, mem_broadcastRoom]
    constructor
    · rintro ⟨c, hc, hr, hx⟩
      exact ⟨c, hc, hx, Or.inr (Or.inr (Or.inr ⟨rfl, (admins_mem_roomsOf c).mp hr⟩))⟩
    · rintro ⟨c, hc, hx, hcase⟩
      rcases hcase with h | ⟨h, _⟩ | ⟨h, _⟩ | ⟨_, hrole⟩
      · exact absurd h (by decide)
      · exact absurd h (by decide)
      · exact absurd h (by decide)
      · exact ⟨c, hc, (admins_mem_roomsOf c).mpr hrole, hx⟩
  · simp only [adminNotification, if_neg h1, if_neg h2, if_neg h3, if_neg h4]
    simp [h1, h2, h3, h4]

/-- C7 counterexample.  The claim states markRead adds a read marker for the
calling user to every message not yet marked read by that user.  The source
gates the marker on the message-global `isRead` flag: once user 2 has read
the message from 7, a later markRead by user 3 adds no marker for 3 even
though 3 never read the message. -/
theorem markAsRead_skips_messages_read_by_others :
    (markAsRead (markAsRead ⟨1, [], [⟨7, false, []⟩]⟩ 2 5) 3 6).messages
      = [⟨7, true, [(2, 5)]⟩]
    ∧ ((markAsRead (markAsRead ⟨1, [], [⟨7, false, []⟩]⟩ 2 5) 3 6).messages.all
        (fun m => m.readBy.all (fun q => q.1 ≠ 3))) = true := by
  refine ⟨by decide, by decide⟩

/-- C7 amended.  markAsRead adds a read marker for the user exactly to the
messages sent by somebody else whose global `isRead` flag is still false
(setting the flag); a message already flagged read — even if this user never
read it — is left untouched; and re-invocation for the same user yields an
identical message list (idempotency as claimed). -/
theorem markAsRead_flag_gated_and_idempotent (c : MChat) (u t t2 i : Nat)
    (hi : i < c.messages.length)
    (hi2 : i < (markAsRead c u t).messages.length) :
    (markAsRead c u t).messages.length = c.messages.length
    ∧ (markAsRead c u t).messages[i] = markMsg u t c.messages[i]
    ∧ (markMsg u t c.messages[i]).readBy
        = (if c.messages[i].sender ≠ u ∧ c.messages[i].isRead = false
           then c.messages[i].readBy ++ [(u, t)]
           else c.messages[i].readBy)
    ∧ (markAsRead (markAsRead c u t) u t2).messages = (markAsRead c u t).messages := by
  refine ⟨by simp [markAsRead], ?_, ?_, ?_⟩
  · simp [markAsRead]
  · unfold markMsg
    split
    · rfl
    · rfl
  · simp only [markAsRead, List.map_map]
    apply List.map_congr_left
    intro m _
    unfold Function.comp markMsg
    by_cases h1 : m.sender = u
    · simp [h1]
    · by_cases h2 : m.isRead
      · simp [h1, h2]
      · simp [h1, h2]

/-- Witness for the C7 amended theorem: a conversation with one unread
message from user 7, marked read twice by user 2. -/
theorem markAsRead_flag_gated_and_idempotent_witness :
    (markAsRead (markAsRead ⟨1, [], [⟨7, false, []⟩]⟩ 2 5) 2 6).messages
      = (markAsRead ⟨1, [], [⟨7, false, []⟩]⟩ 2 5).messages :=
  (markAsRead_flag_gated_and_idempotent ⟨1, [], [⟨7, false, []⟩]⟩ 2 5 6 0
    (by decide) (by decide)).2.2.2

/-- C10.  The mark_read socket handler performs no participant check: for a
user `u` that is not a participant of an existing conversation, the event is
processed exactly like a participant event — the stored chat is replaced by
its markAsRead image (so a still-unread message from another sender does get
a read marker for the outsider `u`), and a messages_read event is emitted to
the live socket of every actual participant. -/
theorem mark_read_no_participant_check
    (chats : List MChat) (cid u t : Nat) (cu : Presence) (c : MChat)
    (hfind : chats.find? (fun x => x.chatId = cid) = some c)
    (hnotp : ∀ p ∈ c.participants, p.user ≠ u) :
    (markReadHandler chats cid u t cu).1
      = chats.map (fun x => if x.chatId = c.chatId then markAsRead c u t else x)
    ∧ (markReadHandler chats cid u t cu).2
      = c.participants.filterMap (fun p =>
          (lookup cu p.user).map (fun sid => ⟨sid, "messages_read", some u⟩))
    ∧ ∀ m ∈ c.messages, m.isRead = false → m.sender ≠ u →
        markMsg u t m ∈ (markAsRead c u t).messages
        ∧ (u, t) ∈ (markMsg u t m).readBy := by
  refine ⟨?_, ?_, ?_⟩
  · simp only [markReadHandler, hfind]
  · simp only [markReadHandler, hfind]
    apply List.filterMap_congr
    intro p hp
    rw [if_pos (hnotp p hp)]
  · intro m hm hread hsender
    constructor
    · simp only [markAsRead]
      exact List.mem_map_of_mem (markMsg u t) hm
    · unfold markMsg
      rw [if_pos ⟨hsender, hread⟩]
      simp

/-- Witness for C10: chat 5 has the single participant 1 (online at
socket 11) and one unread message from 1; the outsider 9 marks it read. -/
theorem mark_read_no_participant_check_witness :
    (markReadHandler [⟨5, [⟨1, Role.farmer, none⟩], [⟨1, false, []⟩]⟩] 5 9 3 [(1, 11)]).1
      = [⟨5, [⟨1, Role.farmer, none⟩], [⟨1, true, [(9, 3)]⟩]⟩]
    ∧ (markReadHandler [⟨5, [⟨1, Role.farmer, none⟩], [⟨1, false, []⟩]⟩] 5 9 3 [(1, 11)]).2
      = [⟨11, "messages_read", some 9⟩] := by
  have h := mark_read_no_participant_check
    [⟨5, [⟨1, Role.farmer, none⟩], [⟨1, false, []⟩]⟩] 5 9 3 [(1, 11)]
    ⟨5, [⟨1, Role.farmer, none⟩], [⟨1, false, []⟩]⟩ (by decide) (by decide)
  refine ⟨?_, ?_⟩
  · rw [h.1]; decide
  · rw [h.2.1]; decide

/-- C4 counterexample.  The claim states that every metric present in both
the reading and the thresholds is checked against its min and max.  The
source checks only temperature and the soil-moisture minimum: a humidity
reading of 10 against a configured humidity threshold with min 30 (clearly
below it) emits no alert at all. -/
theorem checkThresholds_ignores_humidity :
    checkThresholds ⟨none, some ⟨some 30, some 80⟩, none, none⟩
        ⟨none, some 10, none, none⟩ = []
    ∧ jsLtOpt 10 (some 30) = true := by
  refine ⟨by decide, by decide⟩

/-- C4 amended.  An alert is emitted exactly for: temperature below its
configured min (message "Temperature too low: v°C", severity medium);
otherwise temperature above its configured max ("Temperature too high: v°C",
high); and soil moisture below its configured min ("Soil moisture too low:
v%", high).  Humidity and pH are never inspected, soil moisture has no
max check, and a reading inside every configured bound yields no alert. -/
theorem checkThresholds_spec (th : SensorThresholds) (r : SensorReading)
    (a : SAlert) :
    a ∈ checkThresholds th r ↔
      (∃ tt v, th.temperature = some tt ∧ r.temperature = some v
        ∧ jsLtOpt v tt.min = true ∧ a = tempLowAlert v)
      ∨ (∃ tt v, th.temperature = some tt ∧ r.temperature = some v
        ∧ jsLtOpt v tt.min = false ∧ jsGtOpt v tt.max = true ∧ a = tempHighAlert v)
      ∨ (∃ st v, th.soilMoisture = some st ∧ r.soilMoisture = some v
        ∧ jsLtOpt v st.min = true ∧ a = soilLowAlert v) := by
  unfold checkThresholds
  rw [List.mem_append]
  constructor
  · rintro (h | h)
    · rcases htt : th.temperature with _ | tt
      · rw [htt] at h; simp at h
      rcases hrt : r.temperature with _ | v
      · rw [htt, hrt] at h; simp at h
      rw [htt, hrt] at h
      simp only at h
      by_cases hlo : jsLtOpt v tt.min = true
      · rw [if_pos hlo] at h
        simp at h
        exact Or.inl ⟨tt, v, rfl, rfl, hlo, h⟩
      · rw [if_neg hlo] at h
        by_cases hhi : jsGtOpt v tt.max = true
        · rw [if_pos hhi] at h
          simp at h
          exact Or.inr (Or.inl ⟨tt, v, rfl, rfl,
            Bool.not_eq_true _ ▸ hlo, hhi, h⟩)
        · rw [if_neg hhi] at h
          simp at h
    · rcases hst : th.soilMoisture with _ | st
      · rw [hst] at h; simp at h
      rcases hrs : r.soilMoisture with _ | v
      · rw [hst, hrs] at h; simp at h
      rw [hst, hrs] at h
      simp only at h
      by_cases hlo : jsLtOpt v st.min = true
      · rw [if_pos hlo] at h
        simp at h
        exact Or.inr (Or.inr ⟨st, v, rfl, rfl, hlo, h⟩)
      · rw [if_neg hlo] at h
        simp at h
  · rintro (⟨tt, v, htt, hrt, hlo, ha⟩ | ⟨tt, v, htt, hrt, hlo, hhi, ha⟩
      | ⟨st, v, hst, hrs, hlo, ha⟩)
    · left
      rw [htt, hrt]
      simp only
      rw [if_pos hlo]
      simp [ha]
    · left
      rw [htt, hrt]
      simp only
      rw [if_neg (by simp [hlo]), if_pos hhi]
      simp [ha]
    · right
      rw [hst, hrs]
      simp only
      rw [if_pos hlo]
      simp [ha]

/-- C2.  A sequential claim succeeds exactly when a conversation with the
requested id is open and has no assigned expert; on success that
conversation gets the claimant as its expert (and hence as a participant)
and moves to in_progress, while every row with a different id is untouched;
otherwise the route answers the 404 rejection and writes nothing. -/
theorem assign_spec (db : List DChat) (cid e : Nat) :
    ((∃ db2, assign db cid e = Except.ok db2)
      ↔ ∃ c ∈ db, c.id = cid ∧ c.status = DStatus.opened ∧ c.expert = none)
    ∧ (∀ c, findAssignable db cid = some c →
        assign db cid e = Except.ok (saveAssign db c e)
        ∧ (∀ x ∈ saveAssign db c e, x.id = cid →
            x.expert = some e ∧ x.status = DStatus.in_progress ∧ e ∈ dparticipants x)
        ∧ ∀ x ∈ saveAssign db c e, x.id ≠ cid → x ∈ db)
    ∧ (findAssignable db cid = none →
        assign db cid e = Except.error ("Chat not found or already assigned")) := by
  refine ⟨?_, ?_, ?_⟩
  · constructor
    · rintro ⟨db2, hok⟩
      rcases h : findAssignable db cid with _ | c
      · rw [assign, h] at hok; exact absurd hok (by simp)
      · have hmem := List.mem_of_find?_eq_some h
        have hp := List.find?_some h
        simp only [decide_eq_true_eq] at hp
        exact ⟨c, hmem, hp⟩
    · rintro ⟨c, hc, hprops⟩
      have : (findAssignable db cid).isSome := by
        rw [findAssignable, List.find?_isSome]
        exact ⟨c, hc, by simp [hprops.1, hprops.2.1, hprops.2.2]⟩
      rcases h : findAssignable db cid with _ | c0
      · rw [h] at this; exact absurd this (by simp)
      · exact ⟨saveAssign db c0 e, by rw [assign, h]⟩
  · intro c h
    have hp := List.find?_some h
    simp only [decide_eq_true_eq] at hp
    obtain ⟨hid, hopen, hexp⟩ := hp
    refine ⟨by rw [assign, h], ?_, ?_⟩
    · intro x hx hxid
      obtain ⟨y, hy, hfy⟩ := List.mem_map.mp hx
      by_cases hyid : y.id = c.id
      · rw [if_pos hyid] at hfy
        subst hfy
        exact ⟨rfl, rfl, by simp [dparticipants]⟩
      · rw [if_neg hyid] at hfy
        subst hfy
        exact absurd (hxid.trans hid.symm) hyid
    · intro x hx hxid
      obtain ⟨y, hy, hfy⟩ := List.mem_map.mp hx
      by_cases hyid : y.id = c.id
      · rw [if_pos hyid] at hfy
        subst hfy
        exact absurd hid hxid
      · rw [if_neg hyid] at hfy
        subst hfy
        exact hy
  · intro h
    rw [assign, h]

/-- Witness for C2: a single open unassigned conversation 1 claimed by
expert 20. -/
theorem assign_spec_witness :
    assign [⟨1, 10, none, "s", DStatus.opened, none, []⟩] 1 20
      = Except.ok (saveAssign [⟨1, 10, none, "s", DStatus.opened, none, []⟩]
          ⟨1, 10, none, "s", DStatus.opened, none, []⟩ 20) :=
  ((assign_spec [⟨1, 10, none, "s", DStatus.opened, none, []⟩] 1 20).2.1
    ⟨1, 10, none, "s", DStatus.opened, none, []⟩ (by decide)).1

/-- C5 counterexample.  The claim states that any transition out of the
terminal states resolved/closed is rejected.  The status route performs no
transition validation: the farmer of a closed conversation can move it back
to open, and the route reports success. -/
theorem updateStatus_reopens_closed :
    updateStatusRoute [⟨1, 10, none, "s", DStatus.closed, none, []⟩] 1 10
        UserType.farmer DStatus.opened
      = Except.ok [⟨1, 10, none, "s", DStatus.opened, none, []⟩] := by
  rfl

/-- C5 amended.  The status route applies any requested status (the schema
enum is the only validation) whenever the conversation exists and the caller
matches its farmer or expert field; in particular a conversation in a
terminal state (resolved or closed) is updated all the same, so terminal
states are not preserved. -/
theorem updateStatus_no_transition_check (db : List DChat) (cid uid : Nat)
    (ty : UserType) (s : DStatus) (c : DChat)
    (h : findForUser db cid uid ty = some c)
    (_hterm : c.status = DStatus.resolved ∨ c.status = DStatus.closed) :
    ∃ db2, updateStatusRoute db cid uid ty s = Except.ok db2
      ∧ ∀ x ∈ db2, x.id = c.id → x.status = s := by
  refine ⟨db.map (fun x => if x.id = c.id then { c with status := s } else x),
    by rw [updateStatusRoute, h], ?_⟩
  intro x hx hxid
  obtain ⟨y, hy, hfy⟩ := List.mem_map.mp hx
  by_cases hyid : y.id = c.id
  · rw [if_pos hyid] at hfy
    subst hfy
    rfl
  · rw [if_neg hyid] at hfy
    subst hfy
    exact absurd hxid hyid

/-- Witness for the C5 amended theorem: reopening closed conversation 1. -/
theorem updateStatus_no_transition_check_witness :
    ∃ db2, updateStatusRoute [⟨1, 10, none, "s", DStatus.closed, none, []⟩] 1 10
        UserType.farmer DStatus.opened = Except.ok db2
      ∧ ∀ x ∈ db2, x.id = 1 → x.status = DStatus.opened :=
  updateStatus_no_transition_check [⟨1, 10, none, "s", DStatus.closed, none, []⟩]
    1 10 UserType.farmer DStatus.opened ⟨1, 10, none, "s", DStatus.closed, none, []⟩
    (by decide) (Or.inr rfl)

/-- C6 counterexample.  The claim states a second rate call fails with
AlreadyRatedError and leaves the stored rating unchanged.  The rating route
has no already-rated check: rating conversation 1 with score 4 and then again
with score 1 succeeds both times, the second call overwriting the rating. -/
theorem rate_second_call_overwrites :
    rateRoute [⟨1, 10, none, "s", DStatus.opened, none, []⟩] 1 10 4 "good"
      = Except.ok [⟨1, 10, none, "s", DStatus.closed, some ⟨4, "good"⟩, []⟩]
    ∧ rateRoute [⟨1, 10, none, "s", DStatus.closed, some ⟨4, "good"⟩, []⟩] 1 10 1 "bad"
      = Except.ok [⟨1, 10, none, "s", DStatus.closed, some ⟨1, "bad"⟩, []⟩] := by
  refine ⟨by rfl, by rfl⟩

/-- C6 amended.  Whenever a conversation with the requested id belongs to the
calling farmer, every rate call whose score passes the schema range 1..5
succeeds: each one stores the submitted rating (overwriting any previous
one) and forces status closed — no AlreadyRatedError path exists; an
out-of-range score is rejected by the schema validation with the 500 answer
instead. -/
theorem rate_no_single_shot (db : List DChat) (cid fid s1 s2 : Nat)
    (f1 f2 : String) (c : DChat)
    (h : db.find? (fun x => x.id = cid ∧ x.farmer = fid) = some c)
    (hs1 : 1 ≤ s1 ∧ s1 ≤ 5) (hs2 : 1 ≤ s2 ∧ s2 ≤ 5) :
    (∃ db1 db2, rateRoute db cid fid s1 f1 = Except.ok db1
      ∧ rateRoute db1 cid fid s2 f2 = Except.ok db2
      ∧ ∀ x ∈ db2, x.id = c.id →
          x.rating = some ⟨s2, f2⟩ ∧ x.status = DStatus.closed)
    ∧ ∀ s f, ¬ (1 ≤ s ∧ s ≤ 5) →
        rateRoute db cid fid s f = Except.error ("Server error") := by
  have hp := List.find?_some h
  simp only [decide_eq_true_eq] at hp
  obtain ⟨hid, hfarm⟩ := hp
  have hmem := List.mem_of_find?_eq_some h
  set c1 : DChat := { c with rating := some ⟨s1, f1⟩, status := DStatus.closed } with hc1
  have hdb1 : rateRoute db cid fid s1 f1
      = Except.ok (db.map (fun x => if x.id = c.id then c1 else x)) := by
    simp only [rateRoute, h]
    rw [if_pos hs1]
  have hfind1 : (db.map (fun x => if x.id = c.id then c1 else x)).find?
      (fun x => x.id = cid ∧ x.farmer = fid) = some c1 := by
    apply find?_map_replaceD
    · intro x _ hxid
      simp only [decide_eq_false_iff_not]
      rintro ⟨hxcid, _⟩
      exact hxid (hxcid.trans hid.symm)
    · exact ⟨c, hmem, rfl⟩
    · simp [hc1, hid, hfarm]
  set c2 : DChat := { c1 with rating := some ⟨s2, f2⟩, status := DStatus.closed }
    with hc2
  refine ⟨⟨db.map (fun x => if x.id = c.id then c1 else x),
    (db.map (fun x => if x.id = c.id then c1 else x)).map
      (fun x => if x.id = c1.id then c2 else x),
    hdb1, by simp only [rateRoute, hfind1]; rw [if_pos hs2], ?_⟩,
    fun s f hns => by simp only [rateRoute, h]; rw [if_neg hns]⟩
  intro x hx hxid
  obtain ⟨y, hy, hfy⟩ := List.mem_map.mp hx
  by_cases hyid : y.id = c1.id
  · rw [if_pos hyid] at hfy
    subst hfy
    exact ⟨rfl, rfl⟩
  · rw [if_neg hyid] at hfy
    subst hfy
    obtain ⟨z, hz, hfz⟩ := List.mem_map.mp hy
    by_cases hzid : z.id = c.id
    · rw [if_pos hzid] at hfz
      subst hfz
      exact absurd rfl hyid
    · rw [if_neg hzid] at hfz
      subst hfz
      exact absurd hxid hzid

/-- Witness for the C6 amended theorem on conversation 1 of farmer 10,
rated 4 then 1 (both scores inside the schema range). -/
theorem rate_no_single_shot_witness :
    (∃ db1 db2,
      rateRoute [⟨1, 10, none, "s", DStatus.opened, none, []⟩] 1 10 4 "good"
        = Except.ok db1
      ∧ rateRoute db1 1 10 1 "bad" = Except.ok db2
      ∧ ∀ x ∈ db2, x.id = 1 →
          x.rating = some ⟨1, "bad"⟩ ∧ x.status = DStatus.closed)
    ∧ ∀ s f, ¬ (1 ≤ s ∧ s ≤ 5) →
        rateRoute [⟨1, 10, none, "s", DStatus.opened, none, []⟩] 1 10 s f
          = Except.error ("Server error") :=
  rate_no_single_shot [⟨1, 10, none, "s", DStatus.opened, none, []⟩] 1 10 4 1
    "good" "bad" ⟨1, 10, none, "s", DStatus.opened, none, []⟩ (by decide)
    (by decide) (by decide)

/-- C1 counterexample.  The claim states that under concurrent claims exactly
one succeeds, because check and set happen as one conditional update.  The
source is a find-then-save two-step: under the interleaving read-A, read-B,
write-A, write-B of two claims on open conversation 1, both claimants fetch
the still-unassigned document and both saves succeed — two successes, the
later writer 21 ending up as the expert. -/
theorem claim_race_both_succeed :
    (runClaims 1 20 21
        ⟨[⟨1, 10, none, "s", DStatus.opened, none, []⟩],
          ClaimPhase.idle, ClaimPhase.idle⟩
        [ClaimMv.readA, ClaimMv.readB, ClaimMv.writeA, ClaimMv.writeB]).phaseA
      = ClaimPhase.succeeded
    ∧ (runClaims 1 20 21
        ⟨[⟨1, 10, none, "s", DStatus.opened, none, []⟩],
          ClaimPhase.idle, ClaimPhase.idle⟩
        [ClaimMv.readA, ClaimMv.readB, ClaimMv.writeA, ClaimMv.writeB]).phaseB
      = ClaimPhase.succeeded
    ∧ (runClaims 1 20 21
        ⟨[⟨1, 10, none, "s", DStatus.opened, none, []⟩],
          ClaimPhase.idle, ClaimPhase.idle⟩
        [ClaimMv.readA, ClaimMv.readB, ClaimMv.writeA, ClaimMv.writeB]).db
      = [⟨1, 10, some 21, "s", DStatus.in_progress, none, []⟩] := by
  refine ⟨rfl, rfl, rfl⟩

/-- C1 amended.  The claim operation is a find-then-save two-step, not one
conditional update.  Run without interleaving (each claim completes before
the next starts), the guarantee does hold: the first claimant succeeds, the
second is rejected with the 404 answer, and the conversation ends assigned
to the first claimant in state in_progress. -/
theorem claim_sequential_exactly_one (db : List DChat) (cid eA eB : Nat)
    (c : DChat) (h : findAssignable db cid = some c) :
    (runClaims cid eA eB ⟨db, ClaimPhase.idle, ClaimPhase.idle⟩
        [ClaimMv.readA, ClaimMv.writeA, ClaimMv.readB, ClaimMv.writeB]).phaseA
      = ClaimPhase.succeeded
    ∧ (runClaims cid eA eB ⟨db, ClaimPhase.idle, ClaimPhase.idle⟩
        [ClaimMv.readA, ClaimMv.writeA, ClaimMv.readB, ClaimMv.writeB]).phaseB
      = ClaimPhase.rejected
    ∧ ∀ x ∈ (runClaims cid eA eB ⟨db, ClaimPhase.idle, ClaimPhase.idle⟩
        [ClaimMv.readA, ClaimMv.writeA, ClaimMv.readB, ClaimMv.writeB]).db,
        x.id = cid → x.expert = some eA ∧ x.status = DStatus.in_progress := by
  have hp := List.find?_some h
  simp only [decide_eq_true_eq] at hp
  obtain ⟨hid, hopen, hexp⟩ := hp
  have hnone : findAssignable (saveAssign db c eA) cid = none := by
    unfold findAssignable saveAssign
    apply find?_map_replaceD_none
    · intro x _ hxid
      simp only [decide_eq_false_iff_not]
      rintro ⟨hxcid, _⟩
      exact hxid (hxcid.trans hid.symm)
    · simp
  have hrun : runClaims cid eA eB ⟨db, ClaimPhase.idle, ClaimPhase.idle⟩
      [ClaimMv.readA, ClaimMv.writeA, ClaimMv.readB, ClaimMv.writeB]
      = ⟨saveAssign db c eA, ClaimPhase.succeeded, ClaimPhase.rejected⟩ := by
    simp only [runClaims, claimStep, h, hnone]
  rw [hrun]
  refine ⟨rfl, rfl, ?_⟩
  intro x hx hxid
  obtain ⟨y, hy, hfy⟩ := List.mem_map.mp hx
  by_cases hyid : y.id = c.id
  · rw [if_pos hyid] at hfy
    subst hfy
    exact ⟨rfl, rfl⟩
  · rw [if_neg hyid] at hfy
    subst hfy
    exact absurd (hxid.trans hid.symm) hyid

/-- Witness for the C1 amended theorem: experts 20 and 21 claim open
conversation 1 one after the other. -/
theorem claim_sequential_exactly_one_witness :
    (runClaims 1 20 21
        ⟨[⟨1, 10, none, "s", DStatus.opened, none, []⟩],
          ClaimPhase.idle, ClaimPhase.idle⟩
        [ClaimMv.readA, ClaimMv.writeA, ClaimMv.readB, ClaimMv.writeB]).phaseA
      = ClaimPhase.succeeded
    ∧ (runClaims 1 20 21
        ⟨[⟨1, 10, none, "s", DStatus.opened, none, []⟩],
          ClaimPhase.idle, ClaimPhase.idle⟩
        [ClaimMv.readA, ClaimMv.writeA, ClaimMv.readB, ClaimMv.writeB]).phaseB
      = ClaimPhase.rejected
    ∧ ∀ x ∈ (runClaims 1 20 21
        ⟨[⟨1, 10, none, "s", DStatus.opened, none, []⟩],
          ClaimPhase.idle, ClaimPhase.idle⟩
        [ClaimMv.readA, ClaimMv.writeA, ClaimMv.readB, ClaimMv.writeB]).db,
        x.id = 1 → x.expert = some 20 ∧ x.status = DStatus.in_progress :=
  claim_sequential_exactly_one [⟨1, 10, none, "s", DStatus.opened, none, []⟩]
    1 20 21 ⟨1, 10, none, "s", DStatus.opened, none, []⟩ (by decide)

end FarmCore
